import Mathlib

/-!
Shallow embedding of the MedAssist scheduling core
(`src/models.py`, `src/database.py`, `src/scheduling_service.py`,
`src/no_show_predictor.py`).

Modelling conventions:
* Timestamps are absolute minutes since an arbitrary epoch, as `ℤ`.
  A calendar date is the floor `t / 1440`; Python's `datetime.combine`,
  `.date()`, `timedelta.days` (floor division) and `.hour` are translated
  accordingly.  All datetimes manipulated by the scheduling code are
  minute-grained, so the second-level conflict comparison
  `abs(total_seconds()) < duration * 60` becomes `|c - o| < duration`
  in minutes.
* `date.weekday()` (Monday = 0) is `(day + 3) % 7`: day 0 of the epoch is
  a Thursday, matching the 1970-01-01 epoch.
* A doctor's `working_hours` dict, keyed by weekday name with `"HH:MM"`
  strings, is a function from the weekday to an optional pair of
  minutes-from-midnight (the parsed start and end times).
* Python `float` scores are modelled as exact rationals `ℚ`; the literals
  0.1, 0.25, 365.25, ... are exact in both models.
* `uuid.uuid4()` and `datetime.now()` are passed in as explicit `fresh_id`
  and `now` arguments.
* `raise ValueError(msg)` becomes `Except.error msg` with the exact
  message string of the source.
-/

inductive AppointmentStatus where
  | scheduled
  | confirmed
  | completed
  | cancelled
  | no_show
  | rescheduled
deriving DecidableEq, Repr

inductive PatientStatus where
  | active
  | inactive
  | high_risk
deriving DecidableEq, Repr

inductive InsuranceStatus where
  | verified
  | pending
  | expired
  | invalid
deriving DecidableEq, Repr

/-- `PatientStatus.value` strings from the Python `Enum`. -/
def PatientStatus.value : PatientStatus → String
  | .active => "active"
  | .inactive => "inactive"
  | .high_risk => "high_risk"

structure Patient where
  id : String
  first_name : String
  last_name : String
  date_of_birth : ℤ
  phone : String
  email : String
  address : String
  emergency_contact : String
  insurance_provider : String
  insurance_number : String
  insurance_status : InsuranceStatus
  status : PatientStatus
  no_show_count : ℕ
  last_appointment : Option ℤ
  preferred_communication : String
  notes : String
  created_at : ℤ
deriving DecidableEq, Repr

structure Doctor where
  id : String
  first_name : String
  last_name : String
  specialty : String
  phone : String
  email : String
  /-- weekday (Monday = 0) to parsed (start, end) minutes-from-midnight -/
  working_hours : Fin 7 → Option (ℕ × ℕ)
  appointment_duration : ℕ
  max_patients_per_day : ℕ
  is_active : Bool

structure Appointment where
  id : String
  patient_id : String
  doctor_id : String
  appointment_datetime : ℤ
  duration : ℕ
  status : AppointmentStatus
  appointment_type : String
  notes : String
  insurance_verified : Bool
  reminder_sent : Bool
  confirmation_sent : Bool
  created_at : ℤ
  updated_at : ℤ
deriving DecidableEq, Repr

structure NoShowPrediction where
  patient_id : String
  appointment_id : String
  risk_score : ℚ
  risk_factors : List String
  prediction_date : ℤ
deriving DecidableEq, Repr

/-- The persisted state of `MedicalDatabase` (the four JSON collections). -/
structure MedicalDatabase where
  patients : List Patient
  doctors : List Doctor
  appointments : List Appointment
  predictions : List NoShowPrediction

/-! ## database.py -/

/-- `MedicalDatabase.get_patient`: first record with the given id. -/
def get_patient (db : MedicalDatabase) (patient_id : String) : Option Patient :=
  db.patients.find? (fun p => p.id == patient_id)

/-- `MedicalDatabase.get_doctor`. -/
def get_doctor (db : MedicalDatabase) (doctor_id : String) : Option Doctor :=
  db.doctors.find? (fun d => d.id == doctor_id)

/-- `MedicalDatabase.get_appointment`. -/
def get_appointment (db : MedicalDatabase) (appointment_id : String) : Option Appointment :=
  db.appointments.find? (fun a => a.id == appointment_id)

/-- A Python `if doctor_id and record_id != doctor_id: continue` filter:
the record passes when the filter argument is absent or falsy (the empty
string), or when the ids match. -/
def passIdFilter (filterId : Option String) (recordId : String) : Bool :=
  match filterId with
  | none => true
  | some s => s == "" || recordId == s

/-- `MedicalDatabase.get_appointments` with its optional filters. -/
def get_appointments (db : MedicalDatabase) (doctor_id patient_id : Option String)
    (start_date end_date : Option ℤ) : List Appointment :=
  db.appointments.filter fun a =>
    passIdFilter doctor_id a.doctor_id &&
    passIdFilter patient_id a.patient_id &&
    (match start_date with
     | none => true
     | some d => decide (d ≤ a.appointment_datetime)) &&
    (match end_date with
     | none => true
     | some d => decide (a.appointment_datetime ≤ d))

/-- `MedicalDatabase.add_patient`: insert-if-absent by id. -/
def add_patient (db : MedicalDatabase) (patient : Patient) : Bool × MedicalDatabase :=
  if db.patients.any (fun p => p.id == patient.id) then (false, db)
  else (true, { db with patients := db.patients ++ [patient] })

/-- `MedicalDatabase.add_appointment`: insert-if-absent by id. -/
def add_appointment (db : MedicalDatabase) (appointment : Appointment) :
    Bool × MedicalDatabase :=
  if db.appointments.any (fun a => a.id == appointment.id) then (false, db)
  else (true, { db with appointments := db.appointments ++ [appointment] })

/-- The replace-first-matching-id loop of `MedicalDatabase.update_appointment`. -/
def replaceById : List Appointment → Appointment → Bool × List Appointment
  | [], _ => (false, [])
  | b :: bs, a =>
    if b.id == a.id then (true, a :: bs)
    else
      let r := replaceById bs a
      (r.1, b :: r.2)

/-- `MedicalDatabase.update_appointment`. -/
def update_appointment (db : MedicalDatabase) (appointment : Appointment) :
    Bool × MedicalDatabase :=
  let r := replaceById db.appointments appointment
  (r.1, { db with appointments := r.2 })

/-- The replace-first-matching-id loop of `MedicalDatabase.update_patient`. -/
def replacePatientById : List Patient → Patient → Bool × List Patient
  | [], _ => (false, [])
  | q :: qs, p =>
    if q.id == p.id then (true, p :: qs)
    else
      let r := replacePatientById qs p
      (r.1, q :: r.2)

/-- `MedicalDatabase.update_patient`. -/
def update_patient (db : MedicalDatabase) (patient : Patient) :
    Bool × MedicalDatabase :=
  let r := replacePatientById db.patients patient
  (r.1, { db with patients := r.2 })

/-- `MedicalDatabase.add_no_show_prediction`: drops any existing prediction
for the same appointment, then appends the new one. -/
def add_no_show_prediction (db : MedicalDatabase) (prediction : NoShowPrediction) :
    Bool × MedicalDatabase :=
  (true, { db with predictions :=
    (db.predictions.filter fun q => !(q.appointment_id == prediction.appointment_id))
      ++ [prediction] })

/-! ## scheduling_service.py -/

/-- `datetime.date()` on a minute timestamp: floor division by 1440. -/
def dayOf (t : ℤ) : ℤ := Int.fdiv t 1440

/-- `date.weekday()` / `strftime('%A')`: Monday = 0; epoch day 0 is a
Thursday, hence the `+ 3`. -/
def weekdayOf (day : ℤ) : Fin 7 :=
  ⟨((day + 3) % 7).toNat, by omega⟩

/-- `datetime.hour` of a minute timestamp. -/
def hourOf (t : ℤ) : ℤ := (t - dayOf t * 1440) / 60

/-- The occupied start-times collected by `get_available_slots`: the
appointments of the doctor in `[start_of_day, end_of_day]` whose status is
`scheduled` or `confirmed`. -/
def occupiedOn (db : MedicalDatabase) (doctor_id : String)
    (start_of_day end_of_day : ℤ) : List ℤ :=
  ((get_appointments db (some doctor_id) none (some start_of_day) (some end_of_day)).filter
    fun a => decide (a.status = AppointmentStatus.scheduled ∨
                     a.status = AppointmentStatus.confirmed)).map
    fun a => a.appointment_datetime

/-- The `while current_time + duration <= end_of_day` loop of
`get_available_slots`.  A candidate conflicts with an occupied start when
their absolute distance is `< duration` minutes; non-conflicting candidates
are emitted and the cursor always advances by `duration`.
`fuel` bounds the number of iterations; the caller passes enough for every
positive duration (the source loop diverges when `duration = 0`, which no
caller does; the model then stops at the fuel bound). -/
def genSlots (occupied : List ℤ) (duration : ℕ) (end_of_day : ℤ) :
    ℕ → ℤ → List ℤ
  | 0, _ => []
  | fuel + 1, current =>
    if current + duration ≤ end_of_day then
      (if occupied.any (fun o => decide (|current - o| < (duration : ℤ))) then []
       else [current])
        ++ genSlots occupied duration end_of_day fuel (current + duration)
    else []

/-- `SchedulingService.get_available_slots`. -/
def get_available_slots (db : MedicalDatabase) (doctor_id : String) (date : ℤ)
    (appointment_duration : ℕ) : List ℤ :=
  match get_doctor db doctor_id with
  | none => []
  | some doctor =>
    match doctor.working_hours (weekdayOf (dayOf date)) with
    | none => []
    | some (startTime, endTime) =>
      let start_of_day : ℤ := dayOf date * 1440 + startTime
      let end_of_day : ℤ := dayOf date * 1440 + endTime
      let occupied_slots := occupiedOn db doctor_id start_of_day end_of_day
      genSlots occupied_slots appointment_duration end_of_day
        ((end_of_day - start_of_day).toNat + 1) start_of_day

/-- The `Appointment(...)` constructor call inside
`SchedulingService.book_appointment`: status `scheduled`, the duration
copied from the doctor, the flags cleared, both timestamps the creation
time. -/
def bookedAppointment (fresh_id : String) (now : ℤ) (patient_id doctor_id : String)
    (appointment_datetime : ℤ) (duration : ℕ) (appointment_type nts : String) :
    Appointment :=
  { id := fresh_id
    patient_id := patient_id
    doctor_id := doctor_id
    appointment_datetime := appointment_datetime
    duration := duration
    status := .scheduled
    appointment_type := appointment_type
    notes := nts
    insurance_verified := false
    reminder_sent := false
    confirmation_sent := false
    created_at := now
    updated_at := now }

/-- `SchedulingService.book_appointment`.  `fresh_id` stands for the
`uuid.uuid4()` call, `now` for `datetime.now()`; errors carry the exact
`ValueError` message of the source. -/
def book_appointment (db : MedicalDatabase) (fresh_id : String) (now : ℤ)
    (patient_id doctor_id : String) (appointment_datetime : ℤ)
    (appointment_type nts : String) :
    Except String (String × MedicalDatabase) :=
  match get_patient db patient_id with
  | none => .error "Patient not found"
  | some _ =>
    match get_doctor db doctor_id with
    | none => .error "Doctor not found"
    | some doctor =>
      let available_slots :=
        get_available_slots db doctor_id appointment_datetime doctor.appointment_duration
      if appointment_datetime ∈ available_slots then
        let appointment := bookedAppointment fresh_id now patient_id doctor_id
          appointment_datetime doctor.appointment_duration appointment_type nts
        match add_appointment db appointment with
        | (true, db2) => .ok (fresh_id, db2)
        | (false, _) => .error "Failed to book appointment"
      else .error "Appointment slot not available"

/-- `SchedulingService.reschedule_appointment`. -/
def reschedule_appointment (db : MedicalDatabase) (appointment_id : String)
    (new_datetime : ℤ) (now : ℤ) : Bool × MedicalDatabase :=
  match get_appointment db appointment_id with
  | none => (false, db)
  | some appointment =>
    let available_slots :=
      get_available_slots db appointment.doctor_id new_datetime appointment.duration
    if new_datetime ∈ available_slots then
      update_appointment db
        { appointment with
            appointment_datetime := new_datetime
            status := .rescheduled
            updated_at := now }
    else (false, db)

/-- `SchedulingService.cancel_appointment`. -/
def cancel_appointment (db : MedicalDatabase) (appointment_id : String)
    (reason : String) (now : ℤ) : Bool × MedicalDatabase :=
  match get_appointment db appointment_id with
  | none => (false, db)
  | some appointment =>
    update_appointment db
      { appointment with
          status := .cancelled
          notes := appointment.notes ++
            (if reason ≠ "" then "\nCancelled: " ++ reason else "\nCancelled")
          updated_at := now }

/-- `SchedulingService.mark_no_show`.  The appointment is marked `no_show`;
the patient's counter is incremented and the status flips to `high_risk`
at the threshold 3.  The source writes the patient first, then the
appointment. -/
def mark_no_show (db : MedicalDatabase) (appointment_id : String) (now : ℤ) :
    Bool × MedicalDatabase :=
  match get_appointment db appointment_id with
  | none => (false, db)
  | some appointment =>
    let appointment2 :=
      { appointment with status := AppointmentStatus.no_show, updated_at := now }
    let db2 :=
      match get_patient db appointment.patient_id with
      | none => db
      | some patient =>
        let count := patient.no_show_count + 1
        (update_patient db
          { patient with
              no_show_count := count
              status := if 3 ≤ count then PatientStatus.high_risk else patient.status }).2
    update_appointment db2 appointment2

/-- `SchedulingService.complete_appointment`. -/
def complete_appointment (db : MedicalDatabase) (appointment_id : String)
    (nts : String) (now : ℤ) : Bool × MedicalDatabase :=
  match get_appointment db appointment_id with
  | none => (false, db)
  | some appointment =>
    let appointment2 :=
      { appointment with
          status := AppointmentStatus.completed
          notes := appointment.notes ++
            (if nts ≠ "" then "\nCompleted: " ++ nts else "\nCompleted")
          updated_at := now }
    let db2 :=
      match get_patient db appointment.patient_id with
      | none => db
      | some patient =>
        (update_patient db
          { patient with last_appointment := some appointment.appointment_datetime }).2
    update_appointment db2 appointment2

/-- `SchedulingService.register_patient`.  `patient_id` stands for the
`uuid.uuid4()` call, `now` for `datetime.now()`. -/
def register_patient (db : MedicalDatabase) (patient_id : String) (now : ℤ)
    (first_name last_name : String) (date_of_birth : ℤ)
    (phone email address emergency_contact insurance_provider insurance_number
     preferred_communication nts : String) :
    Except String (String × MedicalDatabase) :=
  let patient : Patient :=
    { id := patient_id
      first_name := first_name
      last_name := last_name
      date_of_birth := date_of_birth
      phone := phone
      email := email
      address := address
      emergency_contact := emergency_contact
      insurance_provider := insurance_provider
      insurance_number := insurance_number
      insurance_status := .pending
      status := .active
      no_show_count := 0
      last_appointment := none
      preferred_communication := preferred_communication
      notes := nts
      created_at := now }
  match add_patient db patient with
  | (true, db2) => .ok (patient_id, db2)
  | (false, _) => .error "Failed to register patient - patient may already exist"

/-! ## no_show_predictor.py -/

/-- `NoShowPredictor._calculate_historical_risk`.  The source fetches all
of the patient's appointments (no date filter), uses 0.3 below two records,
otherwise blends the overall no-show fraction 30/70 with the fraction over
the appointments whose datetime is after `now - 90 days`, doubles and
clamps. -/
def calculate_historical_risk (db : MedicalDatabase) (now : ℤ)
    (patient : Patient) : ℚ :=
  let appointments := get_appointments db none (some patient.id) none none
  if appointments.length < 2 then 0.3
  else
    let no_shows :=
      (appointments.filter fun a =>
        decide (a.status = AppointmentStatus.no_show)).length
    let no_show_rate : ℚ := (no_shows : ℚ) / (appointments.length : ℚ)
    let recent_appointments := appointments.filter fun a =>
      decide (now - 90 * 1440 < a.appointment_datetime)
    let no_show_rate2 : ℚ :=
      if recent_appointments.isEmpty then no_show_rate
      else
        let recent_no_shows :=
          (recent_appointments.filter fun a =>
            decide (a.status = AppointmentStatus.no_show)).length
        let recent_no_show_rate : ℚ :=
          (recent_no_shows : ℚ) / (recent_appointments.length : ℚ)
        no_show_rate * 0.3 + recent_no_show_rate * 0.7
    min 1 (no_show_rate2 * 2)

/-- The day-of-week block of `_calculate_timing_risk` (if/elif chain). -/
def dayOfWeekRisk (weekday : Fin 7) : ℚ :=
  if weekday.val = 0 then 0.1
  else if weekday.val = 4 then 0.15
  else if 5 ≤ weekday.val then 0.2
  else 0

/-- The time-of-day block of `_calculate_timing_risk` (if/elif chain). -/
def hourOfDayRisk (hour : ℤ) : ℚ :=
  if hour < 9 ∨ 16 < hour then 0.1
  else if hour = 12 then 0.05
  else 0

/-- The advance-booking blocks of `_calculate_timing_risk`.  Note the
source's `if days_advance > 30: ... elif days_advance > 60:` — the 60-day
branch sits in the `elif` of the 30-day check, so it can never fire; the
last-minute `if days_advance < 1` is a separate check. -/
def advanceBookingRisk (days_advance : ℤ) : ℚ :=
  (if 30 < days_advance then 0.1
   else if 60 < days_advance then 0.2
   else 0)
  + (if days_advance < 1 then 0.15 else 0)

/-- `NoShowPredictor._calculate_timing_risk`: the sum of the three additive
blocks, clamped to at most 1.  `days_advance` is
`(appointment_datetime - created_at).days`, a floor division. -/
def calculate_timing_risk (appointment : Appointment) : ℚ :=
  min 1
    (dayOfWeekRisk (weekdayOf (dayOf appointment.appointment_datetime))
      + hourOfDayRisk (hourOf appointment.appointment_datetime)
      + advanceBookingRisk
          (Int.fdiv (appointment.appointment_datetime - appointment.created_at) 1440))

/-- `NoShowPredictor._calculate_demographic_risk`.  Age is
`(now - date_of_birth).days / 365.25`. -/
def calculate_demographic_risk (now : ℤ) (patient : Patient) : ℚ :=
  let age : ℚ := ((Int.fdiv (now - patient.date_of_birth) 1440 : ℤ) : ℚ) / 365.25
  let risk : ℚ :=
    (if age < 25 then 0.2
     else if age < 35 then 0.1
     else if 65 < age then -0.1
     else 0)
    + (if patient.preferred_communication = "email" then 0.05 else 0)
    + (if patient.status.value = "high_risk" then 0.3 else 0)
    + (if patient.emergency_contact = "" ∨ patient.emergency_contact.trim.length < 5
       then 0.1 else 0)
  max 0 (min 1 risk)

/-- `NoShowPredictor._calculate_financial_risk`. -/
def calculate_financial_risk (patient : Patient) (appointment : Appointment) : ℚ :=
  min 1
    ((if appointment.insurance_verified then 0 else 0.2)
      + (if patient.insurance_provider.toLower ∈ ["medicaid", "medicare", "self_pay"]
         then 0.1 else 0)
      + (if patient.insurance_number.length < 5 then 0.15 else 0))

/-- The `NoShowPrediction(...)` built by `predict_no_show_risk`: weighted
sum of the four sub-scores, clamped to `[0, 1]`; one fixed label per
sub-score strictly above 0.3, in the source's order. -/
def predictionOf (db : MedicalDatabase) (now : ℤ)
    (patient_id appointment_id : String) (patient : Patient)
    (appointment : Appointment) : NoShowPrediction :=
  let historical_risk := calculate_historical_risk db now patient
  let timing_risk := calculate_timing_risk appointment
  let demographic_risk := calculate_demographic_risk now patient
  let financial_risk := calculate_financial_risk patient appointment
  let risk_score :=
    historical_risk * 0.4 + timing_risk * 0.25 + demographic_risk * 0.2
      + financial_risk * 0.15
  let risk_factors :=
    (if 0.3 < historical_risk then ["High historical no-show rate"] else [])
      ++ (if 0.3 < timing_risk then ["Unfavorable appointment timing"] else [])
      ++ (if 0.3 < demographic_risk then ["Demographic risk factors"] else [])
      ++ (if 0.3 < financial_risk then ["Insurance/financial concerns"] else [])
  { patient_id := patient_id
    appointment_id := appointment_id
    risk_score := max 0 (min 1 risk_score)
    risk_factors := risk_factors
    prediction_date := now }

/-- `NoShowPredictor.predict_no_show_risk`: computes the prediction and
persists it via `add_no_show_prediction`, replacing any earlier prediction
for the appointment. -/
def predict_no_show_risk (db : MedicalDatabase) (now : ℤ)
    (patient_id appointment_id : String) :
    Except String (NoShowPrediction × MedicalDatabase) :=
  match get_patient db patient_id, get_appointment db appointment_id with
  | some patient, some appointment =>
    let prediction := predictionOf db now patient_id appointment_id patient appointment
    .ok (prediction, (add_no_show_prediction db prediction).2)
  | _, _ => .error "Patient or appointment not found"

/-! ## Lemmas about the slot-generation loop -/

/-- Membership in the slot loop output: exactly the grid points
`current + k * duration` that fit before `end_of_day` and keep distance
at least `duration` from every occupied start, provided the fuel covers
the whole window. -/
theorem genSlots_mem_iff {occupied : List ℤ} {duration : ℕ} {e : ℤ}
    {fuel : ℕ} {c t : ℤ} (hd : 0 < duration)
    (hfuel : e + duration ≤ c + fuel * duration) :
    t ∈ genSlots occupied duration e fuel c ↔
      ((∃ k : ℕ, t = c + (k : ℤ) * duration) ∧ t + duration ≤ e ∧
        ∀ o ∈ occupied, (duration : ℤ) ≤ |t - o|) := by
  have hd' : (0 : ℤ) < duration := by exact_mod_cast hd
  induction fuel generalizing c with
  | zero =>
    simp only [genSlots, List.not_mem_nil, false_iff]
    rintro ⟨⟨k, rfl⟩, hle, -⟩
    have hk : (0 : ℤ) ≤ (k : ℤ) * duration := by positivity
    simp only [Nat.cast_zero, zero_mul, add_zero] at hfuel
    linarith
  | succ fuel ih =>
    have hfuel' : e + duration ≤ (c + duration) + fuel * duration := by
      have hc1 : ((fuel + 1 : ℕ) : ℤ) * duration = fuel * duration + duration := by
        push_cast; ring
      rw [hc1] at hfuel
      linarith
    by_cases hc : c + (duration : ℤ) ≤ e
    · rw [genSlots, if_pos hc, List.mem_append]
      constructor
      · rintro (hmem | hmem)
        · by_cases hconf :
            occupied.any (fun o => decide (|c - o| < (duration : ℤ))) = true
          · rw [if_pos hconf] at hmem
            simp at hmem
          · rw [if_neg hconf] at hmem
            simp only [List.mem_singleton] at hmem
            subst hmem
            refine ⟨⟨0, by ring⟩, hc, ?_⟩
            intro o ho
            simp only [List.any_eq_true, decide_eq_true_eq, not_exists, not_and,
              not_lt] at hconf
            exact hconf o ho
        · obtain ⟨⟨k, rfl⟩, hle, hno⟩ := (ih hfuel').1 hmem
          exact ⟨⟨k + 1, by push_cast; ring⟩, hle, hno⟩
      · rintro ⟨⟨k, hk⟩, hle, hno⟩
        match k with
        | 0 =>
          simp only [Nat.cast_zero, zero_mul, add_zero] at hk
          subst hk
          left
          have hcf : occupied.any (fun o => decide (|t - o| < (duration : ℤ))) = false := by
            simp only [List.any_eq_false, decide_eq_true_eq, not_lt]
            exact hno
          rw [hcf]
          simp
        | k + 1 =>
          right
          refine (ih hfuel').2 ⟨⟨k, ?_⟩, hle, hno⟩
          rw [hk]; push_cast; ring
    · rw [genSlots, if_neg hc]
      simp only [List.not_mem_nil, false_iff]
      rintro ⟨⟨k, rfl⟩, hle, -⟩
      have hk : (0 : ℤ) ≤ (k : ℤ) * duration := by positivity
      linarith

/-- Every emitted slot is at or after the cursor it was generated from. -/
theorem genSlots_lb {occupied : List ℤ} {duration : ℕ} {e : ℤ}
    {fuel : ℕ} {c t : ℤ} (h : t ∈ genSlots occupied duration e fuel c) :
    c ≤ t := by
  induction fuel generalizing c with
  | zero => simp [genSlots] at h
  | succ fuel ih =>
    rw [genSlots] at h
    by_cases hc : c + (duration : ℤ) ≤ e
    · rw [if_pos hc] at h
      rcases List.mem_append.1 h with h1 | h2
      · have : t = c := by
          split at h1 <;> simp_all
        omega
      · have := ih h2
        omega
    · rw [if_neg hc] at h
      simp at h

/-- The slot loop emits a strictly increasing sequence. -/
theorem genSlots_pairwise (occupied : List ℤ) (duration : ℕ) (e : ℤ)
    (hd : 0 < duration) (fuel : ℕ) (c : ℤ) :
    (genSlots occupied duration e fuel c).Pairwise (· < ·) := by
  induction fuel generalizing c with
  | zero => simp [genSlots]
  | succ fuel ih =>
    rw [genSlots]
    by_cases hc : c + (duration : ℤ) ≤ e
    · rw [if_pos hc, List.pairwise_append]
      refine ⟨by split <;> simp, ih _, ?_⟩
      intro x hx y hy
      have hxc : x = c := by
        split at hx <;> simp_all
      subst hxc
      have h1 := genSlots_lb hy
      have : (0 : ℤ) < duration := by exact_mod_cast hd
      omega
    · rw [if_neg hc]
      simp

/-- The fuel `get_available_slots` passes to the loop covers the whole
working window whenever the duration is positive. -/
theorem fuel_sufficient {s e : ℤ} {duration : ℕ} (hd : 0 < duration) :
    e + duration ≤ s + ((e - s).toNat + 1) * duration := by
  have h1 : (1 : ℤ) ≤ duration := by exact_mod_cast hd
  rcases le_or_lt s e with h | h
  · have h2 : (((e - s).toNat : ℤ)) = e - s := Int.toNat_of_nonneg (by omega)
    have h4 : e - s ≤ (e - s) * duration :=
      le_mul_of_one_le_right (by omega) h1
    rw [h2]
    nlinarith [h4]
  · have h2 : (e - s).toNat = 0 := by omega
    rw [h2]
    simp only [Nat.cast_zero, zero_add, one_mul]
    linarith

/-- Unfolding `get_available_slots` once the doctor and the working-hours
window are known. -/
theorem get_available_slots_eq {db : MedicalDatabase} {doctor_id : String}
    {date : ℤ} {duration : ℕ} {doc : Doctor} {s e : ℕ}
    (hdoc : get_doctor db doctor_id = some doc)
    (hwh : doc.working_hours (weekdayOf (dayOf date)) = some (s, e)) :
    get_available_slots db doctor_id date duration =
      genSlots (occupiedOn db doctor_id (dayOf date * 1440 + s) (dayOf date * 1440 + e))
        duration (dayOf date * 1440 + e)
        (((dayOf date * 1440 + e) - (dayOf date * 1440 + s)).toNat + 1)
        (dayOf date * 1440 + s) := by
  simp only [get_available_slots, hdoc, hwh]

/-- Full membership characterisation of `get_available_slots`. -/
theorem mem_get_available_slots_iff {db : MedicalDatabase} {doctor_id : String}
    {date : ℤ} {duration : ℕ} {doc : Doctor} {s e : ℕ} {t : ℤ}
    (hd : 0 < duration)
    (hdoc : get_doctor db doctor_id = some doc)
    (hwh : doc.working_hours (weekdayOf (dayOf date)) = some (s, e)) :
    t ∈ get_available_slots db doctor_id date duration ↔
      ((∃ k : ℕ, t = dayOf date * 1440 + s + (k : ℤ) * duration) ∧
        t + duration ≤ dayOf date * 1440 + e ∧
        ∀ o ∈ occupiedOn db doctor_id (dayOf date * 1440 + s) (dayOf date * 1440 + e),
          (duration : ℤ) ≤ |t - o|) := by
  rw [get_available_slots_eq hdoc hwh]
  exact genSlots_mem_iff hd (fuel_sufficient hd)

/-- Membership in the occupied-start list. -/
theorem mem_occupiedOn {db : MedicalDatabase} {doctor_id : String}
    {ws we o : ℤ} :
    o ∈ occupiedOn db doctor_id ws we ↔
      ∃ b ∈ db.appointments,
        (doctor_id = "" ∨ b.doctor_id = doctor_id) ∧
        ws ≤ b.appointment_datetime ∧ b.appointment_datetime ≤ we ∧
        (b.status = AppointmentStatus.scheduled ∨
          b.status = AppointmentStatus.confirmed) ∧
        o = b.appointment_datetime := by
  simp only [occupiedOn, get_appointments, passIdFilter, List.mem_map,
    List.mem_filter, Bool.and_eq_true, decide_eq_true_eq, Bool.or_eq_true,
    beq_iff_eq]
  constructor
  · rintro ⟨b, ⟨⟨hb, ⟨⟨hdoc, -⟩, hws⟩, hwe⟩, hst⟩, rfl⟩
    exact ⟨b, hb, hdoc, hws, hwe, hst, rfl⟩
  · rintro ⟨b, hb, hdoc, hws, hwe, hst, rfl⟩
    exact ⟨b, ⟨⟨hb, ⟨⟨hdoc, trivial⟩, hws⟩, hwe⟩, hst⟩, rfl⟩

/-! ## Lemmas about the persistence operations -/

theorem get_patient_update_appointment (db : MedicalDatabase) (a : Appointment)
    (pid : String) : get_patient (update_appointment db a).2 pid = get_patient db pid :=
  rfl

theorem get_doctor_update_appointment (db : MedicalDatabase) (a : Appointment)
    (did : String) : get_doctor (update_appointment db a).2 did = get_doctor db did :=
  rfl

theorem patients_update_appointment (db : MedicalDatabase) (a : Appointment) :
    (update_appointment db a).2.patients = db.patients :=
  rfl

theorem get_doctor_update_patient (db : MedicalDatabase) (p : Patient)
    (did : String) : get_doctor (update_patient db p).2 did = get_doctor db did :=
  rfl

/-- `update_appointment` succeeds when some stored appointment has the id. -/
theorem replaceById_fst {l : List Appointment} {a : Appointment}
    (h : ∃ b ∈ l, b.id = a.id) : (replaceById l a).1 = true := by
  induction l with
  | nil => simp at h
  | cons x xs ih =>
    rw [replaceById]
    by_cases hx : (x.id == a.id) = true
    · rw [if_pos hx]
    · rw [if_neg hx]
      rcases h with ⟨b, hb, hid⟩
      rcases List.mem_cons.1 hb with rfl | hb2
      · exact absurd (beq_iff_eq.2 hid) (by simpa using hx)
      · exact ih ⟨b, hb2, hid⟩

/-- With no duplicate ids, an element of the updated list is either the
replacement or an untouched record with a different id. -/
theorem mem_replaceById {l : List Appointment} {a c : Appointment}
    (hnd : (l.map (fun b => b.id)).Nodup)
    (h : c ∈ (replaceById l a).2) : c = a ∨ (c ∈ l ∧ c.id ≠ a.id) := by
  induction l with
  | nil => simp [replaceById] at h
  | cons x xs ih =>
    rw [replaceById] at h
    rw [List.map_cons, List.nodup_cons] at hnd
    by_cases hx : (x.id == a.id) = true
    · rw [if_pos hx] at h
      rcases List.mem_cons.1 h with rfl | h2
      · exact Or.inl rfl
      · right
        refine ⟨List.mem_cons_of_mem _ h2, fun hca => ?_⟩
        have hxa : x.id = a.id := beq_iff_eq.1 hx
        exact hnd.1 ((hxa.trans hca.symm) ▸ List.mem_map_of_mem _ h2)
    · rw [if_neg hx] at h
      rcases List.mem_cons.1 h with rfl | h2
      · exact Or.inr ⟨List.mem_cons_self _ _, by simpa using hx⟩
      · rcases ih hnd.2 h2 with h3 | ⟨h4, h5⟩
        · exact Or.inl h3
        · exact Or.inr ⟨List.mem_cons_of_mem _ h4, h5⟩

/-- Looking up the replaced id after `replaceById` finds the replacement. -/
theorem find?_replaceById {l : List Appointment} {a b0 : Appointment} {i : String}
    (hfind : l.find? (fun b => b.id == i) = some b0) (hid : a.id = i) :
    ((replaceById l a).2.find? (fun b => b.id == i)) = some a := by
  subst hid
  induction l with
  | nil => simp at hfind
  | cons x xs ih =>
    rw [replaceById]
    by_cases hx : (x.id == a.id) = true
    · rw [if_pos hx]
      simp [List.find?_cons, beq_self_eq_true]
    · rw [if_neg hx]
      rw [List.find?_cons_of_neg _ (by simpa using hx)]
      rw [List.find?_cons_of_neg _ (by simpa using hx)] at hfind
      exact ih hfind

/-- An element of the patient list after `replacePatientById` is the
replacement or an original record. -/
theorem mem_replacePatientById {l : List Patient} {p c : Patient}
    (h : c ∈ (replacePatientById l p).2) : c = p ∨ c ∈ l := by
  induction l with
  | nil => simp [replacePatientById] at h
  | cons x xs ih =>
    rw [replacePatientById] at h
    by_cases hx : (x.id == p.id) = true
    · rw [if_pos hx] at h
      rcases List.mem_cons.1 h with rfl | h2
      · exact Or.inl rfl
      · exact Or.inr (List.mem_cons_of_mem _ h2)
    · rw [if_neg hx] at h
      rcases List.mem_cons.1 h with rfl | h2
      · exact Or.inr (List.mem_cons_self _ _)
      · rcases ih h2 with h3 | h4
        · exact Or.inl h3
        · exact Or.inr (List.mem_cons_of_mem _ h4)

/-- Looking up the replaced id after `replacePatientById` finds the
replacement. -/
theorem find?_replacePatientById {l : List Patient} {p q0 : Patient} {i : String}
    (hfind : l.find? (fun q => q.id == i) = some q0) (hid : p.id = i) :
    ((replacePatientById l p).2.find? (fun q => q.id == i)) = some p := by
  subst hid
  induction l with
  | nil => simp at hfind
  | cons x xs ih =>
    rw [replacePatientById]
    by_cases hx : (x.id == p.id) = true
    · rw [if_pos hx]
      simp [List.find?_cons, beq_self_eq_true]
    · rw [if_neg hx]
      rw [List.find?_cons_of_neg _ (by simpa using hx)]
      rw [List.find?_cons_of_neg _ (by simpa using hx)] at hfind
      exact ih hfind

/-! ## Sample data used by the witness theorems -/

/-- A doctor working Monday-Friday, 09:00-17:00, 30-minute slots. -/
def sampleDoctor : Doctor :=
  { id := "doc1"
    first_name := "Gregory"
    last_name := "House"
    specialty := "general"
    phone := "555-0100"
    email := "house@clinic.example"
    working_hours := fun w => if w.val ≤ 4 then some (540, 1020) else none
    appointment_duration := 30
    max_patients_per_day := 20
    is_active := true }

/-- A reliable, insured patient. -/
def samplePatient : Patient :=
  { id := "pat1"
    first_name := "Jane"
    last_name := "Doe"
    date_of_birth := -18628 * 1440
    phone := "555-0101"
    email := "jane@example.com"
    address := "1 Main St"
    emergency_contact := "John Doe 555-0102"
    insurance_provider := "Acme Health"
    insurance_number := "12345678"
    insurance_status := .pending
    status := .active
    no_show_count := 0
    last_appointment := none
    preferred_communication := "phone"
    notes := ""
    created_at := 0 }

/-- Empty schedule: one doctor, one patient, no appointments. -/
def sampleDB : MedicalDatabase :=
  { patients := [samplePatient]
    doctors := [sampleDoctor]
    appointments := []
    predictions := [] }

/-! ## Claim theorems -/

/-- C1: for every doctor with a working-hours window defined for the
weekday of the queried date and every positive slot duration, every
timestamp returned by `get_available_slots` lies at or after the window
start, ends by the window end (`start + d ≤ window_end`), sits on the grid
`window_start + k * d` for some `k : ℕ`, and the returned sequence is
strictly increasing. -/
theorem C1_slot_grid {db : MedicalDatabase} {doctor_id : String} {date : ℤ}
    {duration : ℕ} {doc : Doctor} {s e : ℕ}
    (hd : 0 < duration)
    (hdoc : get_doctor db doctor_id = some doc)
    (hwh : doc.working_hours (weekdayOf (dayOf date)) = some (s, e)) :
    (∀ t ∈ get_available_slots db doctor_id date duration,
        dayOf date * 1440 + s ≤ t ∧
        t + duration ≤ dayOf date * 1440 + e ∧
        ∃ k : ℕ, t = dayOf date * 1440 + s + (k : ℤ) * duration) ∧
      (get_available_slots db doctor_id date duration).Pairwise (· < ·) := by
  constructor
  · intro t ht
    obtain ⟨⟨k, hk⟩, hle, -⟩ := (mem_get_available_slots_iff hd hdoc hwh).1 ht
    have hnn : (0 : ℤ) ≤ (k : ℤ) * duration := by positivity
    exact ⟨by linarith [hk.ge, hk.le], hle, ⟨k, hk⟩⟩
  · rw [get_available_slots_eq hdoc hwh]
    exact genSlots_pairwise _ _ _ hd _ _

/-- Witness for C1 at the sample doctor on a Monday (day 4 of the epoch),
duration 30. -/
theorem C1_slot_grid_witness :
    (0 : ℕ) < 30 ∧
    ((∀ t ∈ get_available_slots sampleDB "doc1" 5760 30,
        dayOf 5760 * 1440 + (540 : ℕ) ≤ t ∧
        t + (30 : ℕ) ≤ dayOf 5760 * 1440 + (1020 : ℕ) ∧
        ∃ k : ℕ, t = dayOf 5760 * 1440 + (540 : ℕ) + (k : ℤ) * (30 : ℕ)) ∧
      (get_available_slots sampleDB "doc1" 5760 30).Pairwise (· < ·)) :=
  ⟨by decide, C1_slot_grid (by decide) rfl rfl⟩

/-- An appointment booked 70 days in advance, on a Wednesday (day 7006 of
the epoch) at 10:00, insurance verified: every timing penalty other than
advance booking is zero. -/
def farAheadAppointment : Appointment :=
  { id := "apt-far"
    patient_id := "pat1"
    doctor_id := "doc1"
    appointment_datetime := 7006 * 1440 + 600
    duration := 30
    status := .scheduled
    appointment_type := "general"
    notes := ""
    insurance_verified := true
    reminder_sent := false
    confirmation_sent := false
    created_at := 7006 * 1440 + 600 - 70 * 1440
    updated_at := 7006 * 1440 + 600 - 70 * 1440 }

/-- C4 counterexample: `farAheadAppointment` is booked 70 days ahead
(more than 60), its weekday and hour penalties are zero, yet the timing
sub-score is 0.10, not the 0.30 the claim's stacked penalties would give:
the `+0.20` branch sits in the `elif` of the 30-day check and never
fires. -/
theorem C4_counterexample :
    60 < Int.fdiv (farAheadAppointment.appointment_datetime
          - farAheadAppointment.created_at) 1440 ∧
    dayOfWeekRisk (weekdayOf (dayOf farAheadAppointment.appointment_datetime)) = 0 ∧
    hourOfDayRisk (hourOf farAheadAppointment.appointment_datetime) = 0 ∧
    calculate_timing_risk farAheadAppointment = 0.1 ∧
    calculate_timing_risk farAheadAppointment ≠ 0.3 := by
  have hd70 : Int.fdiv (farAheadAppointment.appointment_datetime
      - farAheadAppointment.created_at) 1440 = 70 := by decide
  have hw : (weekdayOf (dayOf farAheadAppointment.appointment_datetime)).val = 2 := by
    decide
  have hh : hourOf farAheadAppointment.appointment_datetime = 10 := by decide
  refine ⟨by rw [hd70]; norm_num, ?_, ?_, ?_, ?_⟩ <;>
    norm_num [calculate_timing_risk, dayOfWeekRisk, hourOfDayRisk,
      advanceBookingRisk, hd70, hw, hh]

/-- C4 amended: for every appointment booked more than 60 days ahead of
its creation time, only the `>30`-day penalty (+0.10) applies to the
timing sub-score; the `>60`-day `+0.20` branch is unreachable, so advance
booking contributes exactly +0.10, never +0.30. -/
theorem C4_amended (a : Appointment)
    (h : 60 < Int.fdiv (a.appointment_datetime - a.created_at) 1440) :
    calculate_timing_risk a =
      min 1 (dayOfWeekRisk (weekdayOf (dayOf a.appointment_datetime))
        + hourOfDayRisk (hourOf a.appointment_datetime) + 0.1) := by
  rw [calculate_timing_risk]
  have h30 : (30 : ℤ) < Int.fdiv (a.appointment_datetime - a.created_at) 1440 := by
    omega
  have h1 : ¬ Int.fdiv (a.appointment_datetime - a.created_at) 1440 < 1 := by
    omega
  rw [advanceBookingRisk, if_pos h30, if_neg h1, add_zero]

/-- Witness for C4 amended at `farAheadAppointment`. -/
theorem C4_amended_witness :
    60 < Int.fdiv (farAheadAppointment.appointment_datetime
          - farAheadAppointment.created_at) 1440 ∧
    calculate_timing_risk farAheadAppointment =
      min 1 (dayOfWeekRisk (weekdayOf (dayOf farAheadAppointment.appointment_datetime))
        + hourOfDayRisk (hourOf farAheadAppointment.appointment_datetime) + 0.1) :=
  ⟨by decide, C4_amended farAheadAppointment (by decide)⟩

/-- C5: for every existing patient and appointment, `predict_no_show_risk`
returns the weighted sum `0.40*historical + 0.25*timing + 0.20*demographic
+ 0.15*financial` clamped to `[0,1]` — hence always within `[0,1]` — and a
risk-factor list holding exactly the fixed label of each sub-score that
strictly exceeds 0.30, in the fixed order historical, timing, demographic,
financial. -/
theorem C5_predict_formula {db : MedicalDatabase} {now : ℤ}
    {patient_id appointment_id : String} {p : Patient} {a : Appointment}
    (hp : get_patient db patient_id = some p)
    (ha : get_appointment db appointment_id = some a) :
    ∃ pred db2,
      predict_no_show_risk db now patient_id appointment_id = .ok (pred, db2) ∧
      pred.risk_score =
        max 0 (min 1 (calculate_historical_risk db now p * 0.4
          + calculate_timing_risk a * 0.25
          + calculate_demographic_risk now p * 0.2
          + calculate_financial_risk p a * 0.15)) ∧
      0 ≤ pred.risk_score ∧ pred.risk_score ≤ 1 ∧
      pred.risk_factors =
        (if 0.3 < calculate_historical_risk db now p
         then ["High historical no-show rate"] else [])
        ++ (if 0.3 < calculate_timing_risk a
            then ["Unfavorable appointment timing"] else [])
        ++ (if 0.3 < calculate_demographic_risk now p
            then ["Demographic risk factors"] else [])
        ++ (if 0.3 < calculate_financial_risk p a
            then ["Insurance/financial concerns"] else []) := by
  unfold predict_no_show_risk
  rw [hp, ha]
  exact ⟨_, _, rfl, rfl, le_max_left _ _,
    max_le (by norm_num) (min_le_left _ _), rfl⟩

/-- Database holding the sample patient, doctor, and the far-ahead
appointment. -/
def sampleDB2 : MedicalDatabase :=
  { patients := [samplePatient]
    doctors := [sampleDoctor]
    appointments := [farAheadAppointment]
    predictions := [] }

/-- Witness for C5 at the sample data. -/
theorem C5_predict_formula_witness :
    ∃ pred db2,
      predict_no_show_risk sampleDB2 1000000 "pat1" "apt-far" = .ok (pred, db2) ∧
      pred.risk_score =
        max 0 (min 1 (calculate_historical_risk sampleDB2 1000000 samplePatient * 0.4
          + calculate_timing_risk farAheadAppointment * 0.25
          + calculate_demographic_risk 1000000 samplePatient * 0.2
          + calculate_financial_risk samplePatient farAheadAppointment * 0.15)) ∧
      0 ≤ pred.risk_score ∧ pred.risk_score ≤ 1 ∧
      pred.risk_factors =
        (if 0.3 < calculate_historical_risk sampleDB2 1000000 samplePatient
         then ["High historical no-show rate"] else [])
        ++ (if 0.3 < calculate_timing_risk farAheadAppointment
            then ["Unfavorable appointment timing"] else [])
        ++ (if 0.3 < calculate_demographic_risk 1000000 samplePatient
            then ["Demographic risk factors"] else [])
        ++ (if 0.3 < calculate_financial_risk samplePatient farAheadAppointment
            then ["Insurance/financial concerns"] else []) :=
  C5_predict_formula rfl rfl

/-- The spec's phrase "past appointments", by its words: the patient's
appointments whose datetime is strictly before the evaluation time.  Used
only to compare the claim's wording with what the code computes. -/
def specPastAppointments (db : MedicalDatabase) (now : ℤ) (patient_id : String) :
    List Appointment :=
  (get_appointments db none (some patient_id) none none).filter
    fun a => decide (a.appointment_datetime < now)

/-- A future scheduled appointment of the sample patient (relative to the
evaluation time 1000000 used below). -/
def futureAppointment1 : Appointment :=
  { id := "fut1"
    patient_id := "pat1"
    doctor_id := "doc1"
    appointment_datetime := 2000000
    duration := 30
    status := .scheduled
    appointment_type := "general"
    notes := ""
    insurance_verified := true
    reminder_sent := false
    confirmation_sent := false
    created_at := 999000
    updated_at := 999000 }

/-- A second future scheduled appointment of the sample patient. -/
def futureAppointment2 : Appointment :=
  { futureAppointment1 with id := "fut2", appointment_datetime := 2001440 }

/-- Sample state: the patient has two appointments on record, both in the
future and neither a no-show. -/
def twoFutureDB : MedicalDatabase :=
  { patients := [samplePatient]
    doctors := [sampleDoctor]
    appointments := [futureAppointment1, futureAppointment2]
    predictions := [] }

/-- C6 counterexample: at time 1000000 the sample patient has zero past
appointments (fewer than 2), yet the historical sub-score is 0, not the
0.30 cold-start value the claim requires: the code counts all of the
patient's appointments, including the two future ones, so it takes the
rate branch. -/
theorem C6_counterexample :
    (specPastAppointments twoFutureDB 1000000 "pat1").length < 2 ∧
    2 ≤ (get_appointments twoFutureDB none (some "pat1") none none).length ∧
    calculate_historical_risk twoFutureDB 1000000 samplePatient = 0 ∧
    calculate_historical_risk twoFutureDB 1000000 samplePatient ≠ 0.3 := by
  have happ : get_appointments twoFutureDB none (some samplePatient.id) none none
      = [futureAppointment1, futureAppointment2] := rfl
  have hval : calculate_historical_risk twoFutureDB 1000000 samplePatient = 0 := by
    rw [calculate_historical_risk, happ]
    norm_num +decide [futureAppointment1, futureAppointment2, List.filter]
  refine ⟨by decide, by decide, hval, ?_⟩
  rw [hval]
  norm_num

/-- C6 amended: the historical sub-score counts all of the patient's
appointments, past or future.  With fewer than 2 on record it is exactly
0.30; with 2 or more it is the overall no-show fraction blended 30%/70%
with the fraction over the appointments whose datetime is after
`now - 90 days` (future ones included) when that set is non-empty — the
plain overall fraction otherwise — scaled by 2 and clamped to at most 1. -/
theorem C6_amended (db : MedicalDatabase) (now : ℤ) (patient : Patient) :
    ((get_appointments db none (some patient.id) none none).length < 2 →
      calculate_historical_risk db now patient = 0.3) ∧
    (2 ≤ (get_appointments db none (some patient.id) none none).length →
      (((get_appointments db none (some patient.id) none none).filter
          fun a => decide (now - 90 * 1440 < a.appointment_datetime)) ≠ [] →
        calculate_historical_risk db now patient =
          min 1 (2 *
            (0.3 * (((get_appointments db none (some patient.id) none none).filter
                fun a => decide (a.status = AppointmentStatus.no_show)).length /
                ((get_appointments db none (some patient.id) none none).length : ℚ))
             + 0.7 * ((((get_appointments db none (some patient.id) none none).filter
                  fun a => decide (now - 90 * 1440 < a.appointment_datetime)).filter
                    fun a => decide (a.status = AppointmentStatus.no_show)).length /
                (((get_appointments db none (some patient.id) none none).filter
                  fun a => decide (now - 90 * 1440 < a.appointment_datetime)).length : ℚ))))) ∧
      (((get_appointments db none (some patient.id) none none).filter
          fun a => decide (now - 90 * 1440 < a.appointment_datetime)) = [] →
        calculate_historical_risk db now patient =
          min 1 (2 * (((get_appointments db none (some patient.id) none none).filter
              fun a => decide (a.status = AppointmentStatus.no_show)).length /
              ((get_appointments db none (some patient.id) none none).length : ℚ))))) := by
  constructor
  · intro h
    rw [calculate_historical_risk, if_pos h]
  · intro hlen
    have hnot : ¬ (get_appointments db none (some patient.id) none none).length < 2 := by
      omega
    constructor
    · intro hne
      have hise : ((get_appointments db none (some patient.id) none none).filter
          fun a => decide (now - 90 * 1440 < a.appointment_datetime)).isEmpty = false := by
        simpa [List.isEmpty_iff] using hne
      rw [calculate_historical_risk, if_neg hnot]
      simp only [hise, Bool.false_eq_true, if_false]
      ring_nf
    · intro hemp
      have hise : ((get_appointments db none (some patient.id) none none).filter
          fun a => decide (now - 90 * 1440 < a.appointment_datetime)).isEmpty = true := by
        simpa [List.isEmpty_iff] using hemp
      rw [calculate_historical_risk, if_neg hnot]
      simp only [hise, if_true]
      ring_nf

/-- Witness for C6 amended: the sample patient with an empty record gets
the 0.30 cold-start score. -/
theorem C6_amended_witness :
    (get_appointments sampleDB none (some samplePatient.id) none none).length < 2 ∧
    calculate_historical_risk sampleDB 0 samplePatient = 0.3 :=
  ⟨by decide, (C6_amended sampleDB 0 samplePatient).1 (by decide)⟩

/-! ## The patient high-risk invariant (C3) -/

/-- The spec's patient invariant: `status = high_risk` exactly when the
no-show counter has reached the threshold 3. -/
def patientRiskInvariant (db : MedicalDatabase) : Prop :=
  ∀ p ∈ db.patients, (p.status = PatientStatus.high_risk ↔ 3 ≤ p.no_show_count)

theorem get_patient_mem {db : MedicalDatabase} {pid : String} {p : Patient}
    (h : get_patient db pid = some p) : p ∈ db.patients :=
  List.mem_of_find?_eq_some h

theorem get_patient_id {db : MedicalDatabase} {pid : String} {p : Patient}
    (h : get_patient db pid = some p) : p.id = pid := by
  have h2 := List.find?_some h
  simpa using h2

theorem get_appointment_mem {db : MedicalDatabase} {aid : String} {a : Appointment}
    (h : get_appointment db aid = some a) : a ∈ db.appointments :=
  List.mem_of_find?_eq_some h

theorem get_appointment_id {db : MedicalDatabase} {aid : String} {a : Appointment}
    (h : get_appointment db aid = some a) : a.id = aid := by
  have h2 := List.find?_some h
  simpa using h2

/-- Updating a patient record whose id matches a lookup makes the lookup
return the update. -/
theorem get_patient_update_patient {db : MedicalDatabase} {p p2 : Patient}
    {pid : String} (hp : get_patient db pid = some p) (hid : p2.id = pid) :
    get_patient (update_patient db p2).2 pid = some p2 :=
  find?_replacePatientById hp hid

/-- The invariant only depends on the patient list. -/
theorem patientRiskInvariant_congr {db db' : MedicalDatabase}
    (h : db'.patients = db.patients) (hinv : patientRiskInvariant db) :
    patientRiskInvariant db' := fun q hq => hinv q (h ▸ hq)

/-- `update_patient` preserves the invariant when the new record satisfies
it. -/
theorem patientRiskInvariant_update {db : MedicalDatabase} {p2 : Patient}
    (hinv : patientRiskInvariant db)
    (h2 : p2.status = PatientStatus.high_risk ↔ 3 ≤ p2.no_show_count) :
    patientRiskInvariant (update_patient db p2).2 := by
  intro q hq
  rcases mem_replacePatientById hq with rfl | hq2
  · exact h2
  · exact hinv q hq2

theorem cancel_patients (db : MedicalDatabase) (aid reason : String) (now : ℤ) :
    (cancel_appointment db aid reason now).2.patients = db.patients := by
  cases h : get_appointment db aid <;>
    simp [cancel_appointment, h, update_appointment]

theorem reschedule_patients (db : MedicalDatabase) (aid : String) (ndt now : ℤ) :
    (reschedule_appointment db aid ndt now).2.patients = db.patients := by
  cases h : get_appointment db aid
  · simp [reschedule_appointment, h]
  · simp only [reschedule_appointment, h]
    split
    · simp [update_appointment]
    · rfl

theorem add_appointment_patients (db : MedicalDatabase) (a : Appointment) :
    (add_appointment db a).2.patients = db.patients := by
  rw [add_appointment]
  split <;> rfl

theorem book_patients {db : MedicalDatabase} {fresh : String} {now : ℤ}
    {pid did : String} {t : ℤ} {ty nts : String}
    {res : String × MedicalDatabase}
    (h : book_appointment db fresh now pid did t ty nts = .ok res) :
    res.2.patients = db.patients := by
  revert h
  unfold book_appointment
  split
  · intro h; simp at h
  · split
    · intro h; simp at h
    · dsimp only
      split
      · split
        · next db2 heq =>
          intro h
          simp only [Except.ok.injEq] at h
          subst h
          show db2.patients = db.patients
          have h4 := congrArg (fun pr => pr.2.patients) heq
          simp only at h4
          rw [← h4]
          exact add_appointment_patients db _
        · intro h; simp at h
      · intro h; simp at h

/-- `mark_no_show` unfolded when the appointment and its patient exist:
the patient is written first (counter bumped, status possibly flipped),
then the appointment. -/
theorem mark_no_show_eq {db : MedicalDatabase} {aid : String} {now : ℤ}
    {a : Appointment} {p : Patient}
    (ha : get_appointment db aid = some a)
    (hp : get_patient db a.patient_id = some p) :
    mark_no_show db aid now =
      update_appointment
        (update_patient db
          { p with
              no_show_count := p.no_show_count + 1
              status := if 3 ≤ p.no_show_count + 1 then PatientStatus.high_risk
                        else p.status }).2
        { a with status := AppointmentStatus.no_show, updated_at := now } := by
  simp only [mark_no_show, ha, hp]

theorem mark_no_show_eq_noPatient {db : MedicalDatabase} {aid : String}
    {now : ℤ} {a : Appointment}
    (ha : get_appointment db aid = some a)
    (hp : get_patient db a.patient_id = none) :
    mark_no_show db aid now =
      update_appointment db
        { a with status := AppointmentStatus.no_show, updated_at := now } := by
  simp only [mark_no_show, ha, hp]

/-- `mark_no_show` preserves the high-risk invariant. -/
theorem mark_no_show_invariant (db : MedicalDatabase) (aid : String) (now : ℤ)
    (hinv : patientRiskInvariant db) :
    patientRiskInvariant (mark_no_show db aid now).2 := by
  cases ha : get_appointment db aid with
  | none =>
    simp only [mark_no_show, ha]
    exact hinv
  | some a =>
    cases hp : get_patient db a.patient_id with
    | none =>
      rw [mark_no_show_eq_noPatient ha hp]
      exact patientRiskInvariant_congr (patients_update_appointment _ _) hinv
    | some p =>
      rw [mark_no_show_eq ha hp]
      apply patientRiskInvariant_congr (patients_update_appointment _ _)
      apply patientRiskInvariant_update hinv
      have hpi := hinv p (get_patient_mem hp)
      show (if 3 ≤ p.no_show_count + 1 then PatientStatus.high_risk else p.status)
        = PatientStatus.high_risk ↔ 3 ≤ p.no_show_count + 1
      by_cases hc : 3 ≤ p.no_show_count + 1
      · rw [if_pos hc]
        exact ⟨fun _ => hc, fun _ => rfl⟩
      · rw [if_neg hc]
        exact ⟨fun hst => absurd (hpi.1 hst) (by omega),
               fun h3 => absurd h3 hc⟩

/-- `mark_no_show` bumps the patient's counter by exactly one and flips
the status at the threshold. -/
theorem mark_no_show_increment {db : MedicalDatabase} {aid : String} {now : ℤ}
    {a : Appointment} {p : Patient}
    (ha : get_appointment db aid = some a)
    (hp : get_patient db a.patient_id = some p) :
    get_patient (mark_no_show db aid now).2 a.patient_id =
      some { p with
          no_show_count := p.no_show_count + 1
          status := if 3 ≤ p.no_show_count + 1 then PatientStatus.high_risk
                    else p.status } := by
  rw [mark_no_show_eq ha hp, get_patient_update_appointment]
  have hid : ({ p with
      no_show_count := p.no_show_count + 1
      status := if 3 ≤ p.no_show_count + 1 then PatientStatus.high_risk
                else p.status } : Patient).id = a.patient_id :=
    @get_patient_id db a.patient_id p hp
  exact get_patient_update_patient hp hid

/-- `complete_appointment` preserves the high-risk invariant. -/
theorem complete_invariant (db : MedicalDatabase) (aid nts : String) (now : ℤ)
    (hinv : patientRiskInvariant db) :
    patientRiskInvariant (complete_appointment db aid nts now).2 := by
  cases ha : get_appointment db aid with
  | none =>
    simp only [complete_appointment, ha]
    exact hinv
  | some a =>
    cases hp : get_patient db a.patient_id with
    | none =>
      simp only [complete_appointment, ha, hp]
      exact patientRiskInvariant_congr (patients_update_appointment _ _) hinv
    | some p =>
      simp only [complete_appointment, ha, hp]
      apply patientRiskInvariant_congr (patients_update_appointment _ _)
      apply patientRiskInvariant_update hinv
      exact hinv p (get_patient_mem hp)

/-- Registration creates an `active` patient with a zero counter, keeping
the invariant. -/
theorem register_invariant {db : MedicalDatabase} {pid : String} {now : ℤ}
    {fn ln : String} {dob : ℤ} {ph em ad ec ip inum pc nts : String}
    {res : String × MedicalDatabase}
    (hinv : patientRiskInvariant db)
    (h : register_patient db pid now fn ln dob ph em ad ec ip inum pc nts
      = .ok res) :
    patientRiskInvariant res.2 := by
  revert h
  unfold register_patient
  dsimp only
  split
  · next db2 heq =>
    rw [add_patient] at heq
    split at heq
    · exact absurd heq (by simp)
    · injection heq with h1 h2
      subst h2
      intro h
      simp only [Except.ok.injEq] at h
      subst h
      intro q hq
      rcases List.mem_append.1 hq with hq1 | hq2
      · exact hinv q hq1
      · simp only [List.mem_singleton] at hq2
        subst hq2
        simp
  · intro h
    simp at h

/-- C3: `mark_no_show` on an existing appointment with an existing patient
increments that patient's counter by exactly 1 and flips the status to
`high_risk` exactly at the threshold 3, never below and never back; the
invariant `status = high_risk ↔ no_show_count ≥ 3` is preserved by
mark-no-show, cancel, complete, reschedule, book and register. -/
theorem C3_no_show_invariant (db : MedicalDatabase) (aid : String) (now : ℤ)
    (reason nts : String) (hinv : patientRiskInvariant db) :
    (∀ a p, get_appointment db aid = some a →
      get_patient db a.patient_id = some p →
      get_patient (mark_no_show db aid now).2 a.patient_id =
        some { p with
            no_show_count := p.no_show_count + 1
            status := if 3 ≤ p.no_show_count + 1 then PatientStatus.high_risk
                      else p.status }) ∧
    patientRiskInvariant (mark_no_show db aid now).2 ∧
    (∀ a p, get_appointment db aid = some a →
      get_patient db a.patient_id = some p →
      p.status = PatientStatus.high_risk →
      ∀ q, get_patient (mark_no_show db aid now).2 a.patient_id = some q →
        q.status = PatientStatus.high_risk) ∧
    patientRiskInvariant (cancel_appointment db aid reason now).2 ∧
    patientRiskInvariant (complete_appointment db aid nts now).2 ∧
    (∀ ndt, patientRiskInvariant (reschedule_appointment db aid ndt now).2) ∧
    (∀ fresh pid did t ty res,
      book_appointment db fresh now pid did t ty nts = .ok res →
      patientRiskInvariant res.2) ∧
    (∀ pid fn ln dob ph em ad ec ip inum pc res,
      register_patient db pid now fn ln dob ph em ad ec ip inum pc nts = .ok res →
      patientRiskInvariant res.2) := by
  refine ⟨fun a p ha hp => mark_no_show_increment ha hp,
    mark_no_show_invariant db aid now hinv, ?_,
    patientRiskInvariant_congr (cancel_patients db aid reason now) hinv,
    complete_invariant db aid nts now hinv,
    fun ndt => patientRiskInvariant_congr (reschedule_patients db aid ndt now) hinv,
    fun fresh pid did t ty res h => patientRiskInvariant_congr (book_patients h) hinv,
    fun pid fn ln dob ph em ad ec ip inum pc res h => register_invariant hinv h⟩
  intro a p ha hp hhr q hq
  rw [mark_no_show_increment ha hp] at hq
  have hq2 := Option.some.inj hq
  have h3 := (hinv p (get_patient_mem hp)).1 hhr
  subst hq2
  show (if 3 ≤ p.no_show_count + 1 then PatientStatus.high_risk else p.status)
    = PatientStatus.high_risk
  rw [if_pos (by omega)]

/-- Witness for C3: marking the sample future appointment as a no-show
takes the sample patient's counter from 0 to 1 and keeps the invariant. -/
theorem C3_no_show_invariant_witness :
    patientRiskInvariant twoFutureDB ∧
    get_patient (mark_no_show twoFutureDB "fut1" 0).2
        futureAppointment1.patient_id =
      some { samplePatient with
          no_show_count := samplePatient.no_show_count + 1
          status := if 3 ≤ samplePatient.no_show_count + 1
                    then PatientStatus.high_risk else samplePatient.status } :=
  ⟨by unfold patientRiskInvariant; decide,
    (C3_no_show_invariant twoFutureDB "fut1" 0 "" ""
        (by unfold patientRiskInvariant; decide)).1
      futureAppointment1 samplePatient rfl rfl⟩

/-- A successful booking: patient and doctor exist, the slot is offered,
and the fresh id is unused; the new appointment is appended. -/
theorem book_appointment_ok {db : MedicalDatabase} {fresh : String} {now : ℤ}
    {pid did : String} {t : ℤ} {ty nts : String} {p : Patient} {doc : Doctor}
    (hp : get_patient db pid = some p)
    (hdoc : get_doctor db did = some doc)
    (hmem : t ∈ get_available_slots db did t doc.appointment_duration)
    (hfresh : ∀ b ∈ db.appointments, b.id ≠ fresh) :
    book_appointment db fresh now pid did t ty nts =
      .ok (fresh, { db with appointments := db.appointments ++
        [bookedAppointment fresh now pid did t doc.appointment_duration ty nts] }) := by
  have hany : ¬ ((db.appointments.any fun a =>
      a.id == (bookedAppointment fresh now pid did t
        doc.appointment_duration ty nts).id) = true) := by
    simp only [List.any_eq_true, beq_iff_eq, not_exists, not_and, bookedAppointment]
    intro b hb
    exact hfresh b hb
  simp only [book_appointment, hp, hdoc]
  rw [if_pos hmem, add_appointment, if_neg hany]

/-- A booking for a slot the availability engine does not offer is
rejected. -/
theorem book_appointment_unavailable {db : MedicalDatabase} {fresh : String}
    {now : ℤ} {pid did : String} {t : ℤ} {ty nts : String} {p : Patient}
    {doc : Doctor}
    (hp : get_patient db pid = some p)
    (hdoc : get_doctor db did = some doc)
    (hmem : t ∉ get_available_slots db did t doc.appointment_duration) :
    book_appointment db fresh now pid did t ty nts =
      .error "Appointment slot not available" := by
  simp only [book_appointment, hp, hdoc]
  rw [if_neg hmem]

/-- C2: booking an offered slot succeeds exactly once.  The first call
appends a `scheduled` appointment whose duration is copied from the
doctor; a second booking of the same datetime for the same doctor (same
duration) is rejected as unavailable, because the first booking now
conflicts with that candidate. -/
theorem C2_book_exactly_once {db : MedicalDatabase} {fresh1 fresh2 : String}
    {now1 now2 : ℤ} {pid1 pid2 did : String} {t : ℤ}
    {ty1 ty2 nts1 nts2 : String} {p1 p2 : Patient} {doc : Doctor} {s e : ℕ}
    (hp1 : get_patient db pid1 = some p1)
    (hp2 : get_patient db pid2 = some p2)
    (hdoc : get_doctor db did = some doc)
    (hd : 0 < doc.appointment_duration)
    (hwh : doc.working_hours (weekdayOf (dayOf t)) = some (s, e))
    (hmem : t ∈ get_available_slots db did t doc.appointment_duration)
    (hfresh : ∀ b ∈ db.appointments, b.id ≠ fresh1) :
    book_appointment db fresh1 now1 pid1 did t ty1 nts1 =
      .ok (fresh1, { db with appointments := db.appointments ++
        [bookedAppointment fresh1 now1 pid1 did t doc.appointment_duration ty1 nts1] }) ∧
    (bookedAppointment fresh1 now1 pid1 did t
        doc.appointment_duration ty1 nts1).status = AppointmentStatus.scheduled ∧
    (bookedAppointment fresh1 now1 pid1 did t
        doc.appointment_duration ty1 nts1).duration = doc.appointment_duration ∧
    book_appointment
      { db with appointments := db.appointments ++
        [bookedAppointment fresh1 now1 pid1 did t doc.appointment_duration ty1 nts1] }
      fresh2 now2 pid2 did t ty2 nts2 = .error "Appointment slot not available" := by
  refine ⟨book_appointment_ok hp1 hdoc hmem hfresh, rfl, rfl, ?_⟩
  have hp2' : get_patient
      { db with appointments := db.appointments ++
        [bookedAppointment fresh1 now1 pid1 did t doc.appointment_duration ty1 nts1] }
      pid2 = some p2 := hp2
  have hdoc' : get_doctor
      { db with appointments := db.appointments ++
        [bookedAppointment fresh1 now1 pid1 did t doc.appointment_duration ty1 nts1] }
      did = some doc := hdoc
  refine book_appointment_unavailable hp2' hdoc' ?_
  intro hmem2
  obtain ⟨⟨k, hk⟩, hle, -⟩ := (mem_get_available_slots_iff hd hdoc hwh).1 hmem
  obtain ⟨-, -, hno⟩ := (mem_get_available_slots_iff hd hdoc' hwh).1 hmem2
  have hd' : (0 : ℤ) < doc.appointment_duration := by exact_mod_cast hd
  have hnn : (0 : ℤ) ≤ (k : ℤ) * doc.appointment_duration := by positivity
  have hws : dayOf t * 1440 + s ≤ t := by linarith [hk.ge, hk.le]
  have hwe : t ≤ dayOf t * 1440 + e := by linarith
  have ht : t ∈ occupiedOn
      { db with appointments := db.appointments ++
        [bookedAppointment fresh1 now1 pid1 did t doc.appointment_duration ty1 nts1] }
      did (dayOf t * 1440 + s) (dayOf t * 1440 + e) :=
    mem_occupiedOn.2
      ⟨bookedAppointment fresh1 now1 pid1 did t doc.appointment_duration ty1 nts1,
        List.mem_append_right _ (List.mem_singleton.2 rfl),
        Or.inr rfl, hws, hwe, Or.inl rfl, rfl⟩
  have hcontra := hno t ht
  rw [sub_self, abs_zero] at hcontra
  exact absurd hcontra (by linarith)

/-- Witness for C2: booking Monday 09:00 at the sample doctor succeeds,
rebooking the same slot is rejected. -/
theorem C2_book_exactly_once_witness :
    book_appointment sampleDB "apt1" 0 "pat1" "doc1" 6300 "general" "" =
      .ok ("apt1", { sampleDB with appointments := sampleDB.appointments ++
        [bookedAppointment "apt1" 0 "pat1" "doc1" 6300
          sampleDoctor.appointment_duration "general" ""] }) ∧
    (bookedAppointment "apt1" 0 "pat1" "doc1" 6300
        sampleDoctor.appointment_duration "general" "").status
      = AppointmentStatus.scheduled ∧
    (bookedAppointment "apt1" 0 "pat1" "doc1" 6300
        sampleDoctor.appointment_duration "general" "").duration
      = sampleDoctor.appointment_duration ∧
    book_appointment
      { sampleDB with appointments := sampleDB.appointments ++
        [bookedAppointment "apt1" 0 "pat1" "doc1" 6300
          sampleDoctor.appointment_duration "general" ""] }
      "apt2" 0 "pat1" "doc1" 6300 "general" "" =
      .error "Appointment slot not available" :=
  C2_book_exactly_once rfl rfl rfl (by decide) rfl (by decide) (by decide)

/-- C8: `book_appointment` fails with the not-found error when the patient
or the doctor id is unknown, fails with the slot-unavailable error when
the datetime is not in the availability output for the doctor's default
duration, the two error kinds are distinguishable, and on success it
returns the new appointment's id. -/
theorem C8_book_errors (db : MedicalDatabase) (fresh : String) (now : ℤ)
    (pid did : String) (t : ℤ) (ty nts : String) :
    (get_patient db pid = none →
      book_appointment db fresh now pid did t ty nts =
        .error "Patient not found") ∧
    (∀ p, get_patient db pid = some p → get_doctor db did = none →
      book_appointment db fresh now pid did t ty nts =
        .error "Doctor not found") ∧
    (∀ p doc, get_patient db pid = some p → get_doctor db did = some doc →
      t ∉ get_available_slots db did t doc.appointment_duration →
      book_appointment db fresh now pid did t ty nts =
        .error "Appointment slot not available") ∧
    (∀ p doc, get_patient db pid = some p → get_doctor db did = some doc →
      t ∈ get_available_slots db did t doc.appointment_duration →
      (∀ b ∈ db.appointments, b.id ≠ fresh) →
      book_appointment db fresh now pid did t ty nts =
        .ok (fresh, { db with appointments := db.appointments ++
          [bookedAppointment fresh now pid did t
            doc.appointment_duration ty nts] })) ∧
    ("Patient not found" ≠ "Appointment slot not available" ∧
      "Doctor not found" ≠ "Appointment slot not available" ∧
      "Patient not found" ≠ "Doctor not found") := by
  refine ⟨?_, ?_, ?_, ?_, by decide, by decide, by decide⟩
  · intro h
    simp only [book_appointment, h]
  · intro p hp hd0
    simp only [book_appointment, hp, hd0]
  · intro p doc hp hdoc hmem
    exact book_appointment_unavailable hp hdoc hmem
  · intro p doc hp hdoc hmem hfresh
    exact book_appointment_ok hp hdoc hmem hfresh

/-- Witness for C8: the three failure modes at the sample data. -/
theorem C8_book_errors_witness :
    book_appointment sampleDB "apt1" 0 "ghost" "doc1" 6300 "general" "" =
      .error "Patient not found" ∧
    book_appointment sampleDB "apt1" 0 "pat1" "drghost" 6300 "general" "" =
      .error "Doctor not found" ∧
    book_appointment sampleDB "apt1" 0 "pat1" "doc1" 6301 "general" "" =
      .error "Appointment slot not available" :=
  ⟨(C8_book_errors sampleDB "apt1" 0 "ghost" "doc1" 6300 "general" "").1 rfl,
   (C8_book_errors sampleDB "apt1" 0 "pat1" "drghost" 6300 "general" "").2.1
     samplePatient rfl rfl,
   (C8_book_errors sampleDB "apt1" 0 "pat1" "doc1" 6301 "general" "").2.2.1
     samplePatient sampleDoctor rfl rfl (by decide)⟩

/-- `predict_no_show_risk` unfolded when both records exist. -/
theorem predict_eq {db : MedicalDatabase} {now : ℤ}
    {patient_id appointment_id : String} {p : Patient} {a : Appointment}
    (hp : get_patient db patient_id = some p)
    (ha : get_appointment db appointment_id = some a) :
    predict_no_show_risk db now patient_id appointment_id =
      .ok (predictionOf db now patient_id appointment_id p a,
        (add_no_show_prediction db
          (predictionOf db now patient_id appointment_id p a)).2) := by
  unfold predict_no_show_risk
  rw [hp, ha]

/-- After `add_no_show_prediction` the store holds exactly one prediction
for the written appointment. -/
theorem filter_add_no_show_prediction (db : MedicalDatabase)
    (q : NoShowPrediction) :
    ((add_no_show_prediction db q).2.predictions.filter
      fun r => r.appointment_id == q.appointment_id) = [q] := by
  show ((db.predictions.filter fun r => !(r.appointment_id == q.appointment_id))
      ++ [q]).filter (fun r => r.appointment_id == q.appointment_id) = [q]
  rw [List.filter_append, List.filter_filter]
  simp

/-- C9: `predict_no_show_risk` is deterministic in the persisted state and
the clock: with no intervening mutation, a second call returns the very
same prediction, and each call leaves exactly one stored prediction for
the appointment (the write replaces, not appends). -/
theorem C9_predict_deterministic {db : MedicalDatabase} {now : ℤ}
    {patient_id appointment_id : String} {p : Patient} {a : Appointment}
    (hp : get_patient db patient_id = some p)
    (ha : get_appointment db appointment_id = some a) :
    ∃ pred db1 db2,
      predict_no_show_risk db now patient_id appointment_id = .ok (pred, db1) ∧
      predict_no_show_risk db1 now patient_id appointment_id = .ok (pred, db2) ∧
      pred.appointment_id = appointment_id ∧
      (db1.predictions.filter fun q => q.appointment_id == appointment_id)
        = [pred] ∧
      (db2.predictions.filter fun q => q.appointment_id == appointment_id)
        = [pred] := by
  have k1 := @predict_eq db now patient_id appointment_id p a hp ha
  have hp1 : get_patient
      (add_no_show_prediction db
        (predictionOf db now patient_id appointment_id p a)).2 patient_id
      = some p := hp
  have ha1 : get_appointment
      (add_no_show_prediction db
        (predictionOf db now patient_id appointment_id p a)).2 appointment_id
      = some a := ha
  have k2 := @predict_eq _ now patient_id appointment_id p a hp1 ha1
  have hsame : predictionOf
      (add_no_show_prediction db
        (predictionOf db now patient_id appointment_id p a)).2
      now patient_id appointment_id p a
      = predictionOf db now patient_id appointment_id p a := rfl
  rw [hsame] at k2
  have h4 := filter_add_no_show_prediction db
    (predictionOf db now patient_id appointment_id p a)
  have h5 := filter_add_no_show_prediction
    (add_no_show_prediction db
      (predictionOf db now patient_id appointment_id p a)).2
    (predictionOf db now patient_id appointment_id p a)
  exact ⟨predictionOf db now patient_id appointment_id p a, _, _, k1, k2, rfl,
    h4, h5⟩

/-- Witness for C9 at the sample data. -/
theorem C9_predict_deterministic_witness :
    ∃ pred db1 db2,
      predict_no_show_risk sampleDB2 1000000 "pat1" "apt-far" = .ok (pred, db1) ∧
      predict_no_show_risk db1 1000000 "pat1" "apt-far" = .ok (pred, db2) ∧
      pred.appointment_id = "apt-far" ∧
      (db1.predictions.filter fun q => q.appointment_id == "apt-far") = [pred] ∧
      (db2.predictions.filter fun q => q.appointment_id == "apt-far") = [pred] :=
  C9_predict_deterministic rfl rfl

/-- `cancel_appointment` unfolded when the appointment exists. -/
theorem cancel_appointment_eq {db : MedicalDatabase} {aid reason : String}
    {now : ℤ} {a : Appointment} (ha : get_appointment db aid = some a) :
    cancel_appointment db aid reason now =
      update_appointment db
        { a with
            status := AppointmentStatus.cancelled
            notes := a.notes ++
              (if reason ≠ "" then "\nCancelled: " ++ reason else "\nCancelled")
            updated_at := now } := by
  simp only [cancel_appointment, ha]

/-- C7: cancelling a `scheduled` appointment frees its slot: with the
doctor's window covering the grid point and no other occupying appointment
conflicting, re-querying the availability for the same doctor, date and
duration afterwards includes the cancelled appointment's start time. -/
theorem C7_cancel_frees_slot {db : MedicalDatabase} {aid reason : String}
    {now : ℤ} {a : Appointment} {doc : Doctor} {date : ℤ} {duration : ℕ}
    {s e : ℕ}
    (ha : get_appointment db aid = some a)
    (_hst : a.status = AppointmentStatus.scheduled)
    (hnd : (db.appointments.map (fun b => b.id)).Nodup)
    (hdoc : get_doctor db a.doctor_id = some doc)
    (hdid : a.doctor_id ≠ "")
    (hwh : doc.working_hours (weekdayOf (dayOf date)) = some (s, e))
    (hd : 0 < duration)
    (hgrid : ∃ k : ℕ, a.appointment_datetime
        = dayOf date * 1440 + s + (k : ℤ) * duration)
    (hend : a.appointment_datetime + duration ≤ dayOf date * 1440 + e)
    (hother : ∀ b ∈ db.appointments, b.id ≠ aid → b.doctor_id = a.doctor_id →
      (b.status = AppointmentStatus.scheduled ∨
        b.status = AppointmentStatus.confirmed) →
      (duration : ℤ) ≤ |a.appointment_datetime - b.appointment_datetime|) :
    (cancel_appointment db aid reason now).1 = true ∧
    a.appointment_datetime ∈
      get_available_slots (cancel_appointment db aid reason now).2
        a.doctor_id date duration := by
  rw [cancel_appointment_eq ha]
  constructor
  · exact replaceById_fst ⟨a, get_appointment_mem ha, rfl⟩
  · have hdoc' : get_doctor
        (update_appointment db
          { a with
              status := AppointmentStatus.cancelled
              notes := a.notes ++
                (if reason ≠ "" then "\nCancelled: " ++ reason else "\nCancelled")
              updated_at := now }).2 a.doctor_id = some doc := hdoc
    refine (mem_get_available_slots_iff hd hdoc' hwh).2 ⟨hgrid, hend, ?_⟩
    intro o ho
    obtain ⟨b, hb, hbdoc, hbws, hbwe, hbst, rfl⟩ := mem_occupiedOn.1 ho
    rcases mem_replaceById hnd hb with rfl | ⟨hbl, hbid⟩
    · rcases hbst with h | h <;> simp at h
    · have hbid2 : b.id ≠ aid := by
        simpa [get_appointment_id ha] using hbid
      exact hother b hbl hbid2 (hbdoc.resolve_left hdid) hbst

/-- An appointment of the sample doctor at Monday 09:00 (minute 6300). -/
def mondayAppointment : Appointment :=
  { id := "mon1"
    patient_id := "pat1"
    doctor_id := "doc1"
    appointment_datetime := 6300
    duration := 30
    status := .scheduled
    appointment_type := "general"
    notes := ""
    insurance_verified := false
    reminder_sent := false
    confirmation_sent := false
    created_at := 0
    updated_at := 0 }

/-- Sample state whose only appointment is `mondayAppointment`. -/
def mondayDB : MedicalDatabase :=
  { patients := [samplePatient]
    doctors := [sampleDoctor]
    appointments := [mondayAppointment]
    predictions := [] }

/-- Witness for C7: cancelling the Monday 09:00 appointment puts 6300 back
into the availability of that Monday. -/
theorem C7_cancel_frees_slot_witness :
    (cancel_appointment mondayDB "mon1" "" 0).1 = true ∧
    mondayAppointment.appointment_datetime ∈
      get_available_slots (cancel_appointment mondayDB "mon1" "" 0).2
        mondayAppointment.doctor_id 6300 30 :=
  C7_cancel_frees_slot rfl rfl (by decide) rfl (by decide) rfl (by decide)
    ⟨0, by decide⟩ (by decide) (by decide)

/-- `reschedule_appointment` unfolded when the appointment exists and the
new slot is offered. -/
theorem reschedule_appointment_eq {db : MedicalDatabase} {aid : String}
    {ndt now : ℤ} {a : Appointment}
    (ha : get_appointment db aid = some a)
    (hmem : ndt ∈ get_available_slots db a.doctor_id ndt a.duration) :
    reschedule_appointment db aid ndt now =
      update_appointment db
        { a with
            appointment_datetime := ndt
            status := AppointmentStatus.rescheduled
            updated_at := now } := by
  simp only [reschedule_appointment, ha]
  rw [if_pos hmem]

/-- C10: after a successful reschedule the appointment's status is
`rescheduled`, which the availability computation does not count as
occupying a slot; the new start time is therefore still offered by
`get_available_slots`, and a subsequent booking of that same slot for the
same doctor succeeds, double-booking the rescheduled appointment. -/
theorem C10_reschedule_double_booking {db : MedicalDatabase} {aid : String}
    {ndt now now2 : ℤ} {a : Appointment} {doc : Doctor} {s e : ℕ}
    {fresh pid2 : String} {p2 : Patient} {ty2 nts2 : String}
    (ha : get_appointment db aid = some a)
    (hnd : (db.appointments.map (fun b => b.id)).Nodup)
    (hdoc : get_doctor db a.doctor_id = some doc)
    (hdur : doc.appointment_duration = a.duration)
    (hd : 0 < a.duration)
    (hwh : doc.working_hours (weekdayOf (dayOf ndt)) = some (s, e))
    (hmem : ndt ∈ get_available_slots db a.doctor_id ndt a.duration)
    (hp2 : get_patient db pid2 = some p2)
    (hfresh : ∀ b ∈ db.appointments, b.id ≠ fresh) :
    (reschedule_appointment db aid ndt now).1 = true ∧
    get_appointment (reschedule_appointment db aid ndt now).2 aid =
      some { a with
          appointment_datetime := ndt
          status := AppointmentStatus.rescheduled
          updated_at := now } ∧
    ndt ∈ get_available_slots (reschedule_appointment db aid ndt now).2
      a.doctor_id ndt doc.appointment_duration ∧
    ∃ db2,
      book_appointment (reschedule_appointment db aid ndt now).2
        fresh now2 pid2 a.doctor_id ndt ty2 nts2 = .ok (fresh, db2) ∧
      get_appointment db2 aid =
        some { a with
            appointment_datetime := ndt
            status := AppointmentStatus.rescheduled
            updated_at := now } ∧
      get_appointment db2 fresh =
        some (bookedAppointment fresh now2 pid2 a.doctor_id ndt
          doc.appointment_duration ty2 nts2) := by
  rw [reschedule_appointment_eq ha hmem]
  have hdoc' : get_doctor
      (update_appointment db
        { a with
            appointment_datetime := ndt
            status := AppointmentStatus.rescheduled
            updated_at := now }).2 a.doctor_id = some doc := hdoc
  have hp2' : get_patient
      (update_appointment db
        { a with
            appointment_datetime := ndt
            status := AppointmentStatus.rescheduled
            updated_at := now }).2 pid2 = some p2 := hp2
  have hfind1 : get_appointment
      (update_appointment db
        { a with
            appointment_datetime := ndt
            status := AppointmentStatus.rescheduled
            updated_at := now }).2 aid =
      some { a with
          appointment_datetime := ndt
          status := AppointmentStatus.rescheduled
          updated_at := now } :=
    find?_replaceById ha (@get_appointment_id db aid a ha)
  have hfresh' : ∀ b ∈ (update_appointment db
      { a with
          appointment_datetime := ndt
          status := AppointmentStatus.rescheduled
          updated_at := now }).2.appointments, b.id ≠ fresh := by
    intro b hb
    rcases mem_replaceById hnd hb with rfl | ⟨hbl, -⟩
    · exact hfresh a (get_appointment_mem ha)
    · exact hfresh b hbl
  obtain ⟨hgrid, hend, hno⟩ := (mem_get_available_slots_iff hd hdoc hwh).1 hmem
  have hmem2 : ndt ∈ get_available_slots
      (update_appointment db
        { a with
            appointment_datetime := ndt
            status := AppointmentStatus.rescheduled
            updated_at := now }).2 a.doctor_id ndt doc.appointment_duration := by
    rw [hdur]
    refine (mem_get_available_slots_iff hd hdoc' hwh).2 ⟨hgrid, hend, ?_⟩
    intro o ho
    obtain ⟨b, hb, hbdoc, hbws, hbwe, hbst, rfl⟩ := mem_occupiedOn.1 ho
    rcases mem_replaceById hnd hb with rfl | ⟨hbl, -⟩
    · rcases hbst with h | h <;> simp at h
    · exact hno b.appointment_datetime
        (mem_occupiedOn.2 ⟨b, hbl, hbdoc, hbws, hbwe, hbst, rfl⟩)
  refine ⟨replaceById_fst ⟨a, get_appointment_mem ha, rfl⟩, hfind1, hmem2,
    _, book_appointment_ok hp2' hdoc' hmem2 hfresh', ?_, ?_⟩
  · show (((update_appointment db
        { a with
            appointment_datetime := ndt
            status := AppointmentStatus.rescheduled
            updated_at := now }).2.appointments ++
      [bookedAppointment fresh now2 pid2 a.doctor_id ndt
        doc.appointment_duration ty2 nts2]).find? fun b => b.id == aid) =
      some { a with
          appointment_datetime := ndt
          status := AppointmentStatus.rescheduled
          updated_at := now }
    rw [List.find?_append]
    rw [show ((update_appointment db
        { a with
            appointment_datetime := ndt
            status := AppointmentStatus.rescheduled
            updated_at := now }).2.appointments.find? fun b => b.id == aid) =
        some { a with
            appointment_datetime := ndt
            status := AppointmentStatus.rescheduled
            updated_at := now } from hfind1]
    rfl
  · show (((update_appointment db
        { a with
            appointment_datetime := ndt
            status := AppointmentStatus.rescheduled
            updated_at := now }).2.appointments ++
      [bookedAppointment fresh now2 pid2 a.doctor_id ndt
        doc.appointment_duration ty2 nts2]).find? fun b => b.id == fresh) =
      some (bookedAppointment fresh now2 pid2 a.doctor_id ndt
        doc.appointment_duration ty2 nts2)
    rw [List.find?_append]
    rw [List.find?_eq_none.2 (fun b hb => by simpa using hfresh' b hb)]
    simp [bookedAppointment]

/-- Witness for C10: rescheduling the Monday 09:00 appointment to 10:00
leaves 10:00 available, and booking it again double-books. -/
theorem C10_reschedule_double_booking_witness :
    (reschedule_appointment mondayDB "mon1" 6360 0).1 = true ∧
    get_appointment (reschedule_appointment mondayDB "mon1" 6360 0).2 "mon1" =
      some { mondayAppointment with
          appointment_datetime := 6360
          status := AppointmentStatus.rescheduled
          updated_at := 0 } ∧
    (6360 : ℤ) ∈ get_available_slots
      (reschedule_appointment mondayDB "mon1" 6360 0).2
      mondayAppointment.doctor_id 6360 sampleDoctor.appointment_duration ∧
    ∃ db2,
      book_appointment (reschedule_appointment mondayDB "mon1" 6360 0).2
        "apt-new" 5 "pat1" mondayAppointment.doctor_id 6360 "general" "" =
        .ok ("apt-new", db2) ∧
      get_appointment db2 "mon1" =
        some { mondayAppointment with
            appointment_datetime := 6360
            status := AppointmentStatus.rescheduled
            updated_at := 0 } ∧
      get_appointment db2 "apt-new" =
        some (bookedAppointment "apt-new" 5 "pat1" mondayAppointment.doctor_id
          6360 sampleDoctor.appointment_duration "general" "") :=
  C10_reschedule_double_booking rfl (by decide) rfl rfl (by decide) rfl
    (by decide) rfl (by decide)
